import Mathlib

/-!
Shallow embedding of the `tempo` repository (Rust sources
`src/consensus/config.rs`, `src/consensus/config_loader.rs`,
`src/store/wrapper.rs`) together with proofs about its specification.

Machine integers are modelled as `Nat` (ports are `u16`, checked `< 2^16`
where the source parses them). Fallible code returns `Except`/`Option`.
External collaborator crates (`multiaddr`, `toml`, Rust `std` string
operations) are modelled to the extent the embedded code exercises them.
All definitions are executable; string operations are defined on the
character list of a `String` so that concrete instances reduce in the
kernel.
-/

set_option autoImplicit false

namespace Tempo

/-! ## Models of Rust `std` string operations (namespace `Rs`) -/

namespace Rs

/-- Rust `str::split(c)` on a `char` pattern: splits at every occurrence,
keeps empty pieces, and yields `[""]` on the empty string (the iterator is
never empty, so `.last()` on it is always `Some`). -/
def splitChars (c : Char) : List Char → List (List Char)
  | [] => [[]]
  | x :: xs =>
    let r := splitChars c xs
    if x = c then [] :: r
    else match r with
      | [] => [[x]]
      | h :: t => (x :: h) :: t

def split (c : Char) (s : String) : List String :=
  (splitChars c s.data).map String.mk

/-- Rust `str::trim`: removes leading and trailing whitespace characters
(Unicode `White_Space`; the ASCII subset suffices for the strings this
code handles). -/
def trim (s : String) : String :=
  String.mk (((s.data.dropWhile Char.isWhitespace).reverse.dropWhile
    Char.isWhitespace).reverse)

def isEmpty (s : String) : Bool :=
  s.data.isEmpty

/-- Numeric value of a non-empty all-digit character list, `none`
otherwise. -/
def digitsVal? (cs : List Char) : Option Nat :=
  if cs.isEmpty || !cs.all Char.isDigit then none
  else some (cs.foldl (fun n c => n * 10 + (c.toNat - 48)) 0)

/-- Rust `str::parse::<u16>()`: an optional leading `+`, then one or more
ASCII digits (leading zeros allowed), failing on an empty string, any
other character, and overflow (value ≥ 2^16). -/
def parseU16 (s : String) : Option Nat :=
  let t := match s.data with
    | '+' :: rest => rest
    | cs => cs
  match digitsVal? t with
  | none => none
  | some n => if n < 65536 then some n else none

/-- Rust `u16` `Display` (used by `format!` on ports): decimal digits,
no sign, no padding. Fuel-based so that it reduces in the kernel; the
fuel `n + 1` always suffices. -/
def natDigitsAux : Nat → Nat → List Char
  | 0, _ => []
  | fuel + 1, n =>
    if n < 10 then [Char.ofNat (48 + n)]
    else natDigitsAux fuel (n / 10) ++ [Char.ofNat (48 + n % 10)]

def natToString (n : Nat) : String :=
  String.mk (natDigitsAux (n + 1) n)

end Rs

/-! ## Model of the external `multiaddr` crate (`Multiaddr::from_str`)

The crate splits the input on `/`, requires the first piece to be empty
(so the string is empty or starts with `/`), and then repeatedly reads a
protocol name from a fixed table followed by that protocol's argument,
validating the argument (`ip4` a dotted-quad IPv4 address, `tcp`/`udp` a
decimal `u16` port, the DNS protocols and `p2p` a non-empty name). An
unknown protocol name, a missing or invalid argument, or a first piece
that is not empty make the parse fail. Only the protocols the
repository's address strings can mention are modelled; every other
protocol name is rejected, as the crate rejects it for such strings. -/

/-- Rust `Ipv4Addr::from_str` accepts exactly four `.`-separated decimal
octets, each non-empty, all digits, without a leading zero (unless the
octet is `0` itself) and at most `255`. -/
def validIpv4Octet (s : String) : Bool :=
  !Rs.isEmpty s && s.data.all Char.isDigit &&
    (s.data.length == 1 || s.data.head? != some '0') &&
    (match Rs.digitsVal? s.data with | some n => n ≤ 255 | none => false)

def validIpv4 (s : String) : Bool :=
  match Rs.split '.' s with
  | [a, b, c, d] => validIpv4Octet a && validIpv4Octet b &&
      validIpv4Octet c && validIpv4Octet d
  | _ => false

/-- A parsed multiaddress: its list of (protocol, argument) components. -/
structure Multiaddr where
  parts : List (String × String)
  deriving DecidableEq, Repr

/-- Does protocol `p` accept argument `a`? -/
def protoArgOk (p a : String) : Bool :=
  if p == "ip4" then validIpv4 a
  else if p == "tcp" || p == "udp" then (Rs.parseU16 a).isSome
  else if p == "dns" || p == "dns4" || p == "dns6" || p == "dnsaddr" || p == "p2p" then
    !Rs.isEmpty a
  else false

def parseParts : List String → Option (List (String × String))
  | [] => some []
  | [_] => none
  | p :: a :: rest =>
    if protoArgOk p a then (parseParts rest).map ((p, a) :: ·) else none

def Multiaddr.fromStr (s : String) : Option Multiaddr :=
  match Rs.split '/' s with
  | "" :: parts => (parseParts parts).map Multiaddr.mk
  | _ => none

/-- The hard-coded fallback address of `NodeConfig::new`:
`"/ip4/127.0.0.1/tcp/26656"`. -/
def defaultListenAddr : Multiaddr :=
  ⟨[("ip4", "127.0.0.1"), ("tcp", "26656")]⟩

/-! ## Model of `toml::Value`

The loader only ever indexes tables by key (`get`) and reads string
values (`as_str`); every other TOML shape behaves uniformly for those two
accessors, so the model keeps strings, tables, and one constructor for
all other values. -/

inductive TomlValue where
  | str (s : String)
  | table (entries : List (String × TomlValue))
  | other
  deriving Repr

/-- `toml::Value::get`: key lookup on a table, `None` on any other
value. -/
def TomlValue.get? : TomlValue → String → Option TomlValue
  | .table entries, k => entries.lookup k
  | _, _ => none

/-- `toml::Value::as_str`: the string of a string value, otherwise
`None`. -/
def TomlValue.asStr : TomlValue → Option String
  | .str s => some s
  | _ => none

/-! ## Domain types

`Height`, `Round`, `Value`, `ValueId` and the certificate/proposal types
are opaque external domain types passed through unchanged; they are
modelled by `Nat`-based concrete types so that instances can be
evaluated. -/

abbrev Height := Nat
abbrev Round := Nat
abbrev Value := Nat
abbrev ValueId := Nat

structure CommitCertificate where
  height : Height
  round : Round
  value_id : ValueId
  deriving DecidableEq, Repr

structure DecidedValue where
  certificate : CommitCertificate
  value : Value
  deriving DecidableEq, Repr

structure ProposedValue where
  height : Height
  round : Round
  value_id : ValueId
  value : Value
  deriving DecidableEq, Repr

/-! ## `src/consensus/config.rs` -/

/-- Rust `std::net::SocketAddr`, kept as its display components: the IP
host string and the port. -/
structure SocketAddr where
  host : String
  port : Nat
  deriving DecidableEq, Repr

structure DiscoveryConfig where
  enabled : Bool
  deriving DecidableEq, Repr

/-- Malachite `P2pConfig`; the pub-sub `protocol` field is an external
default never read or written by this repository and is elided. -/
structure P2pConfig where
  listen_addr : Multiaddr
  persistent_peers : List Multiaddr
  discovery : DiscoveryConfig
  deriving DecidableEq, Repr

/-- Malachite `ConsensusConfig`; the `value_payload` and `timeouts`
fields are set to fixed external defaults and never read by this
repository, so they are elided. -/
structure ConsensusCfg where
  p2p : P2pConfig
  deriving DecidableEq, Repr

structure MetricsConfig where
  enabled : Bool
  listen_addr : SocketAddr
  deriving DecidableEq, Repr

/-- `NodeConfig`; the `runtime`, `logging` and `value_sync` fields are
external defaults never read or written by this repository and are
elided. -/
structure NodeConfig where
  moniker : String
  consensus : ConsensusCfg
  metrics : MetricsConfig
  deriving DecidableEq, Repr

/-- `NodeConfig::new`: parse the listen address, falling back to the
hard-coded `/ip4/127.0.0.1/tcp/26656` when it does not parse (the
source's inner `.unwrap()` on that literal cannot panic, see
`defaultListenAddr_parses`); keep exactly the peers that parse as
multiaddrs; metrics default to enabled on `127.0.0.1:9000`. -/
def NodeConfig.new (moniker : String) (listen_addr : String)
    (peers : List String) : NodeConfig :=
  let listen_addr := (Multiaddr.fromStr listen_addr).getD defaultListenAddr
  let persistent_peers := peers.filterMap Multiaddr.fromStr
  { moniker := moniker
    consensus := {
      p2p := {
        listen_addr := listen_addr
        persistent_peers := persistent_peers
        discovery := { enabled := false } } }
    metrics := {
      enabled := true
      listen_addr := ⟨"127.0.0.1", 9000⟩ } }

structure WalConfig where
  path : String
  max_file_size : Nat
  retain_all : Bool
  deriving DecidableEq, Repr

def WalConfig.default : WalConfig :=
  { path := "./wal"
    max_file_size := 100 * 1024 * 1024
    retain_all := false }

structure NetworkConfig where
  chain_id : String
  listen_addr : SocketAddr
  peers : List String
  discovery_enabled : Bool
  deriving DecidableEq, Repr

def NetworkConfig.new (chain_id : String) (listen_addr : SocketAddr) :
    NetworkConfig :=
  { chain_id := chain_id
    listen_addr := listen_addr
    peers := []
    discovery_enabled := false }

def NetworkConfig.with_peers (c : NetworkConfig) (peers : List String) :
    NetworkConfig :=
  { c with peers := peers }

def NetworkConfig.with_discovery (c : NetworkConfig) (enabled : Bool) :
    NetworkConfig :=
  { c with discovery_enabled := enabled }

structure EngineConfig where
  node : NodeConfig
  wal : WalConfig
  network : NetworkConfig
  start_height : Option Height
  deriving DecidableEq, Repr

/-- `EngineConfig::new`: formats the socket address back into a
multiaddr-shaped string for `NodeConfig::new`. -/
def EngineConfig.new (chain_id : String) (moniker : String)
    (listen_addr : SocketAddr) : EngineConfig :=
  let listen_str :=
    "/ip4/" ++ listen_addr.host ++ "/tcp/" ++ Rs.natToString listen_addr.port
  let network := NetworkConfig.new chain_id listen_addr
  let node := NodeConfig.new moniker listen_str []
  { node := node
    wal := WalConfig.default
    network := network
    start_height := none }

def EngineConfig.with_wal_dir (c : EngineConfig) (path : String) :
    EngineConfig :=
  { c with wal.path := path }

def EngineConfig.with_start_height (c : EngineConfig) (height : Height) :
    EngineConfig :=
  { c with start_height := some height }

def EngineConfig.with_peers (c : EngineConfig) (peers : List String) :
    EngineConfig :=
  { c with
    network.peers := peers
    node.consensus.p2p.persistent_peers := peers.filterMap Multiaddr.fromStr }

/-! ## `src/consensus/config_loader.rs` -/

/-- Rust `Option::ok_or_else` under the `?` operator: missing value
becomes a load error. -/
def okOr {α : Type} (o : Option α) (msg : String) : Except String α :=
  match o with
  | some a => .ok a
  | none => .error msg

/-- The straight-line tail of `load_engine_config` (source lines 46–87),
once the three required extractions have succeeded: peers, metrics port,
derived socket address, node config, engine config. The two `parse()?`
calls on `format!("127.0.0.1:{port}")` / `format!("0.0.0.0:{port}")`
cannot fail for a `u16` port and are modelled as direct `SocketAddr`
construction. -/
def buildEngineConfig (doc p2p : TomlValue) (chain_id node_id : String)
    (listen_addr : String) : EngineConfig :=
  let peers_str := ((p2p.get? "persistent_peers").bind TomlValue.asStr).getD ""
  let peers : List String :=
    if Rs.isEmpty peers_str then []
    else (Rs.split ',' peers_str).map Rs.trim
  let metrics_port :=
    (((((doc.get? "metrics").bind (fun m => m.get? "listen_addr")).bind
      TomlValue.asStr).bind (fun addr => (Rs.split ':' addr).getLast?)).bind
      Rs.parseU16).getD 9000
  let consensus_port :=
    (((Rs.split '/' listen_addr).getLast?).bind Rs.parseU16).getD 26656
  let socket_addr : SocketAddr := ⟨"127.0.0.1", consensus_port⟩
  let node_config := NodeConfig.new node_id listen_addr peers
  let node_config :=
    { node_config with metrics.listen_addr := ⟨"0.0.0.0", metrics_port⟩ }
  let engine_config := EngineConfig.new chain_id node_id socket_addr
  { engine_config with
    node := node_config
    network := engine_config.network.with_peers peers }

/-- `load_engine_config`, from the parsed TOML document onward (reading
the file and parsing the TOML text are I/O that happens before the logic
modelled here). -/
def load_engine_config (doc : TomlValue) (chain_id : String)
    (node_id : String) : Except String EngineConfig := do
  let consensus ← okOr (doc.get? "consensus")
    "Missing 'consensus' section in config"
  let p2p ← okOr (consensus.get? "p2p")
    "Missing 'consensus.p2p' section in config"
  let listen_addr ← okOr ((p2p.get? "listen_addr").bind TomlValue.asStr)
    "Missing 'consensus.p2p.listen_addr'"
  return buildEngineConfig doc p2p chain_id node_id listen_addr

/-- The loader's required-field path: the `consensus.p2p.listen_addr`
string, when the document has it. -/
def requiredListenAddr (doc : TomlValue) : Option String :=
  ((doc.get? "consensus").bind (fun c => c.get? "p2p")).bind
    (fun p => (p.get? "listen_addr").bind TomlValue.asStr)

/-- The loader's optional `consensus.p2p.persistent_peers` string. -/
def peersField (doc : TomlValue) : Option String :=
  (((doc.get? "consensus").bind (fun c => c.get? "p2p")).bind
    (fun p => p.get? "persistent_peers")).bind TomlValue.asStr

/-- The loader's optional metrics port: the last `:`-separated piece of
`metrics.listen_addr`, parsed as a `u16`. -/
def metricsPortField (doc : TomlValue) : Option Nat :=
  ((((doc.get? "metrics").bind (fun m => m.get? "listen_addr")).bind
    TomlValue.asStr).bind (fun addr => (Rs.split ':' addr).getLast?)).bind
    Rs.parseU16

/-! ## `src/store/wrapper.rs` — the type-erased Store facade

Each facade operation awaits the corresponding backend (`RethStore`)
operation; one backend call is modelled as the `Except` value it
resolves to, so a backend is a bundle of result-producing functions. The
`StoreOps for RethStore` impl converts the backend's error type into the
facade's report type with `map_err(Into::into)`; the conversion is the
`into` parameter. -/

structure StoreOps (ε : Type) where
  max_decided_value_height : Option Height
  get_decided_value : Height → Except ε (Option DecidedValue)
  store_decided_value : CommitCertificate → Value → Except ε Unit
  get_undecided_proposals : Height → Round → Except ε (List ProposedValue)
  store_undecided_proposal : ProposedValue → Except ε Unit
  get_undecided_proposal : Height → Round → ValueId → Except ε (Option ProposedValue)
  verify_tables : Except ε Unit

/-- The `StoreOps for RethStore<P>` impl: every operation delegates and
maps the error through the conversion (`map_err(Into::into)`);
`max_decided_value_height` has no error to map. -/
def storeOpsImpl {ε R : Type} (b : StoreOps ε) (into : ε → R) : StoreOps R :=
  { max_decided_value_height := b.max_decided_value_height
    get_decided_value := fun h => (b.get_decided_value h).mapError into
    store_decided_value := fun c v => (b.store_decided_value c v).mapError into
    get_undecided_proposals := fun h r =>
      (b.get_undecided_proposals h r).mapError into
    store_undecided_proposal := fun p =>
      (b.store_undecided_proposal p).mapError into
    get_undecided_proposal := fun h r id =>
      (b.get_undecided_proposal h r id).mapError into
    verify_tables := b.verify_tables.mapError into }

/-- The type-erased facade: a shared handle to the erased backend. -/
structure Store (R : Type) where
  inner : StoreOps R

/-- `Store::new`: wrap a concrete backend behind the erased interface. -/
def Store.new {ε R : Type} (backend : StoreOps ε) (into : ε → R) : Store R :=
  ⟨storeOpsImpl backend into⟩

def Store.max_decided_value_height {R : Type} (s : Store R) : Option Height :=
  s.inner.max_decided_value_height

def Store.get_decided_value {R : Type} (s : Store R) (height : Height) :
    Except R (Option DecidedValue) :=
  s.inner.get_decided_value height

def Store.store_decided_value {R : Type} (s : Store R)
    (certificate : CommitCertificate) (value : Value) : Except R Unit :=
  s.inner.store_decided_value certificate value

def Store.get_undecided_proposals {R : Type} (s : Store R) (height : Height)
    (round : Round) : Except R (List ProposedValue) :=
  s.inner.get_undecided_proposals height round

def Store.store_undecided_proposal {R : Type} (s : Store R)
    (proposal : ProposedValue) : Except R Unit :=
  s.inner.store_undecided_proposal proposal

def Store.get_undecided_proposal {R : Type} (s : Store R) (height : Height)
    (round : Round) (value_id : ValueId) : Except R (Option ProposedValue) :=
  s.inner.get_undecided_proposal height round value_id

def Store.verify_tables {R : Type} (s : Store R) : Except R Unit :=
  s.inner.verify_tables

/-- One facade result forwards one backend result exactly: it is the
backend result with the error converted, so it succeeds exactly when the
backend succeeded, with the same success value, and any facade error is
the conversion of a backend error. -/
def forwards {ε R α : Type} (into : ε → R) (facade : Except R α)
    (backend : Except ε α) : Prop :=
  facade = backend.mapError into ∧
  facade.isOk = backend.isOk ∧
  (∀ a : α, facade = .ok a ↔ backend = .ok a) ∧
  (∀ e' : R, facade = .error e' → ∃ e : ε, backend = .error e ∧ e' = into e)

theorem mapError_forwards {ε R α : Type} (into : ε → R)
    (backend : Except ε α) : forwards into (backend.mapError into) backend := by
  cases backend with
  | ok a =>
    refine ⟨rfl, rfl, ?_, ?_⟩
    · intro b
      constructor <;> (intro h; simpa [Except.mapError] using h)
    · intro e' h
      simp [Except.mapError] at h
  | error e =>
    refine ⟨rfl, rfl, ?_, ?_⟩
    · intro b
      constructor <;> (intro h; simp [Except.mapError] at h)
    · intro e' h
      exact ⟨e, rfl, by simpa [Except.mapError] using h.symm⟩

/-! ## The concrete `RethStore` decided/undecided persistence (modelled)

Only the facade is among the visible sources; the typed backend the
claims about persistence semantics describe is not. Its decided-value
behaviour is modelled from the spec below. -/

/-- First-match association lookup on the decided table, keyed by
height. -/
def lookupDecided : List (Height × DecidedValue) → Height → Option DecidedValue
  | [], _ => none
  | (k, d) :: t, h => if k = h then some d else lookupDecided t h

/-- Modelled from the spec: the visible sources contain only the facade
(`src/store/wrapper.rs`); the concrete `RethStore` persistence it wraps
is missing. Spec §3/§4.1: per height at most one `DecidedValue`, written
once and then immutable (no update, no delete); undecided proposals are
keyed by (height, round, value_id), overwrite-safe. The state is the
decided table (height-keyed, insertion order) and the undecided proposal
table. -/
structure StoreState where
  decided : List (Height × DecidedValue)
  undecided : List ProposedValue
  deriving DecidableEq, Repr

def StoreState.empty : StoreState := ⟨[], []⟩

/-- Modelled from the spec (`store_decided_value`, §4.1 item 3 and §3):
"Atomically persists the (certificate, value) pair as the DecidedValue
for the certificate's height. MUST be idempotent under retry"; "once
written it is immutable (no update, no delete)". The operation always
succeeds; a height that already holds a DecidedValue is left untouched. -/
def StoreState.store_decided_value (s : StoreState)
    (certificate : CommitCertificate) (value : Value) : StoreState :=
  if (lookupDecided s.decided certificate.height).isSome then s
  else { s with
    decided := s.decided ++ [(certificate.height, ⟨certificate, value⟩)] }

/-- Modelled from the spec (`get_decided_value`, §4.1 item 2): the
DecidedValue for the height if one was committed, empty result
otherwise. -/
def StoreState.get_decided_value (s : StoreState) (height : Height) :
    Option DecidedValue :=
  lookupDecided s.decided height

/-- Modelled from the spec (`store_undecided_proposal`, §4.1 item 5):
keyed by (height, round, value_id); same key overwrites, distinct keys
accumulate. -/
def StoreState.store_undecided_proposal (s : StoreState)
    (proposal : ProposedValue) : StoreState :=
  { s with
    undecided := (s.undecided.filter (fun q =>
      !(q.height == proposal.height && q.round == proposal.round &&
        q.value_id == proposal.value_id))) ++ [proposal] }

/-- One write operation against the store. -/
inductive StoreOp where
  | storeDecided (certificate : CommitCertificate) (value : Value)
  | storeUndecided (proposal : ProposedValue)
  deriving DecidableEq, Repr

def applyOp (s : StoreState) : StoreOp → StoreState
  | .storeDecided c v => s.store_decided_value c v
  | .storeUndecided p => s.store_undecided_proposal p

def applyOps (s : StoreState) (ops : List StoreOp) : StoreState :=
  ops.foldl applyOp s

/-! ## Concrete instances used by counterexamples and witnesses -/

/-- The configuration file of the round-trip property: the
`consensus.p2p` section has `listen_addr = "/ip4/127.0.0.1/tcp/26657"`
and `persistent_peers = "a, b"`. -/
def roundTripDoc : TomlValue :=
  .table [("consensus", .table [("p2p", .table [
    ("listen_addr", .str "/ip4/127.0.0.1/tcp/26657"),
    ("persistent_peers", .str "a, b")])])]

/-- A configuration file whose `consensus.p2p.listen_addr` is present
but not parsable as a multiaddr. -/
def unparsableListenDoc : TomlValue :=
  .table [("consensus", .table [("p2p", .table [
    ("listen_addr", .str "garbage")])])]

/-- A configuration file with only the required field: no
`persistent_peers`, no `metrics` section. -/
def minimalDoc : TomlValue :=
  .table [("consensus", .table [("p2p", .table [
    ("listen_addr", .str "/ip4/0.0.0.0/tcp/1")])])]

/-- A configuration file whose operator sets a metrics host other than
`0.0.0.0`. -/
def metricsDoc : TomlValue :=
  .table [("consensus", .table [("p2p", .table [
    ("listen_addr", .str "/ip4/127.0.0.1/tcp/26657")])]),
   ("metrics", .table [("listen_addr", .str "1.2.3.4:7777")])]

/-- The loader's result on `minimalDoc` (the successful extraction path
instantiated by hand). -/
def minimalLoaded : EngineConfig :=
  buildEngineConfig minimalDoc
    (.table [("listen_addr", .str "/ip4/0.0.0.0/tcp/1")]) "c" "n"
    "/ip4/0.0.0.0/tcp/1"

/-- The loader's result on `metricsDoc`. -/
def metricsLoaded : EngineConfig :=
  buildEngineConfig metricsDoc
    (.table [("listen_addr", .str "/ip4/127.0.0.1/tcp/26657")]) "c" "n"
    "/ip4/127.0.0.1/tcp/26657"

/-- The base configuration used by the `with_peers` counterexample and
witness. -/
def withPeersBase : EngineConfig :=
  EngineConfig.new "chain" "node" ⟨"127.0.0.1", 26657⟩

/-- A concrete backend used to witness the forwarding theorem. -/
def backendW : StoreOps Nat :=
  { max_decided_value_height := some 5
    get_decided_value := fun _ => .ok none
    store_decided_value := fun _ _ => .error 3
    get_undecided_proposals := fun _ _ => .ok []
    store_undecided_proposal := fun _ => .ok ()
    get_undecided_proposal := fun _ _ _ => .ok none
    verify_tables := .error 9 }

/-! ## Helper lemmas -/

/-- The source unwraps `"/ip4/127.0.0.1/tcp/26656".parse()`; the unwrap
cannot panic because that literal parses. -/
theorem defaultListenAddr_parses :
    Multiaddr.fromStr "/ip4/127.0.0.1/tcp/26656" = some defaultListenAddr := by
  decide

theorem lookupDecided_append_some {l : List (Height × DecidedValue)}
    (l' : List (Height × DecidedValue)) {h : Height} {d : DecidedValue}
    (hl : lookupDecided l h = some d) : lookupDecided (l ++ l') h = some d := by
  induction l with
  | nil => simp [lookupDecided] at hl
  | cons x t ih =>
    obtain ⟨k, v⟩ := x
    rw [List.cons_append]
    by_cases hk : k = h
    · simpa [lookupDecided, hk] using hl
    · rw [lookupDecided] at hl ⊢
      simp only [if_neg hk] at hl ⊢
      exact ih hl

theorem lookupDecided_eq_none_iff {l : List (Height × DecidedValue)}
    {h : Height} : lookupDecided l h = none ↔ h ∉ l.map Prod.fst := by
  induction l with
  | nil => simp [lookupDecided]
  | cons x t ih =>
    obtain ⟨k, v⟩ := x
    by_cases hk : k = h
    · simp [lookupDecided, hk]
    · simp [lookupDecided, hk, ih, Ne.symm hk]

theorem lookupDecided_append_self {l : List (Height × DecidedValue)}
    {h : Height} (d : DecidedValue) (hl : lookupDecided l h = none) :
    lookupDecided (l ++ [(h, d)]) h = some d := by
  induction l with
  | nil => simp [lookupDecided]
  | cons x t ih =>
    obtain ⟨k, v⟩ := x
    by_cases hk : k = h
    · simp [lookupDecided, hk] at hl
    · rw [lookupDecided] at hl
      simp only [if_neg hk] at hl
      rw [List.cons_append, lookupDecided, if_neg hk]
      exact ih hl

theorem applyOp_keys_nodup {s : StoreState}
    (hs : (s.decided.map Prod.fst).Nodup) (op : StoreOp) :
    ((applyOp s op).decided.map Prod.fst).Nodup := by
  cases op with
  | storeUndecided p =>
    simpa [applyOp, StoreState.store_undecided_proposal] using hs
  | storeDecided c v =>
    simp only [applyOp, StoreState.store_decided_value]
    cases hcase : lookupDecided s.decided c.height with
    | some d => simpa [hcase] using hs
    | none =>
      have hmem : c.height ∉ s.decided.map Prod.fst :=
        lookupDecided_eq_none_iff.mp hcase
      simp only [hcase, Option.isSome_none, Bool.false_eq_true, if_false,
        List.map_append, List.map_cons, List.map_nil]
      exact hs.append (List.nodup_singleton _)
        (List.disjoint_singleton.2 hmem)

theorem applyOps_keys_nodup (ops : List StoreOp) {s : StoreState}
    (hs : (s.decided.map Prod.fst).Nodup) :
    ((applyOps s ops).decided.map Prod.fst).Nodup := by
  induction ops generalizing s with
  | nil => simpa [applyOps] using hs
  | cons op rest ih =>
    rw [applyOps, List.foldl_cons]
    exact ih (applyOp_keys_nodup hs op)

theorem filterMap_all_isSome {α β : Type} (f : α → Option β) :
    ∀ (l : List α), (∀ a ∈ l, (f a).isSome) →
      l.map f = (l.filterMap f).map some := by
  intro l
  induction l with
  | nil => intro _; rfl
  | cons a t ih =>
    intro hall
    have ha : (f a).isSome := hall a (List.mem_cons_self a t)
    cases hfa : f a with
    | none => rw [hfa] at ha; simp at ha
    | some b =>
      rw [List.map_cons, List.filterMap_cons, hfa, List.map_cons,
        ih (fun x hx => hall x (List.mem_cons_of_mem a hx))]

theorem buildEngineConfig_node_listen (doc p2p : TomlValue)
    (chain_id node_id listen_addr : String) :
    (buildEngineConfig doc p2p chain_id node_id
      listen_addr).node.consensus.p2p.listen_addr
      = (Multiaddr.fromStr listen_addr).getD defaultListenAddr := by
  simp [buildEngineConfig, NodeConfig.new]

theorem buildEngineConfig_metrics (doc p2p : TomlValue)
    (chain_id node_id listen_addr : String) :
    (buildEngineConfig doc p2p chain_id node_id
      listen_addr).node.metrics.listen_addr
      = ⟨"0.0.0.0", (metricsPortField doc).getD 9000⟩ := by
  simp [buildEngineConfig, metricsPortField, NodeConfig.new]

theorem buildEngineConfig_peers (doc p2p : TomlValue)
    (chain_id node_id listen_addr : String) :
    (buildEngineConfig doc p2p chain_id node_id listen_addr).network.peers
      = (if Rs.isEmpty (((p2p.get? "persistent_peers").bind
            TomlValue.asStr).getD "") then []
         else (Rs.split ','
            (((p2p.get? "persistent_peers").bind TomlValue.asStr).getD
              "")).map Rs.trim) := by
  simp [buildEngineConfig, NetworkConfig.with_peers, NetworkConfig.new,
    EngineConfig.new]

theorem exceptErrBind {ε α β : Type} (e : ε) (f : α → Except ε β) :
    ((Except.error e : Except ε α) >>= f) = Except.error e := rfl

theorem exceptOkBind {ε α β : Type} (a : α) (f : α → Except ε β) :
    ((Except.ok a : Except ε α) >>= f) = f a := rfl

theorem exceptMapOk {ε α β : Type} (f : α → β) (a : α) :
    (f <$> (Except.ok a : Except ε α)) = Except.ok (f a) := rfl

theorem exceptMapErr {ε α β : Type} (f : α → β) (e : ε) :
    (f <$> (Except.error e : Except ε α)) = Except.error e := rfl

theorem load_ok_inv {doc : TomlValue} {chain_id node_id : String}
    {cfg : EngineConfig}
    (h : load_engine_config doc chain_id node_id = .ok cfg) :
    ∃ c p la, doc.get? "consensus" = some c ∧ c.get? "p2p" = some p ∧
      (p.get? "listen_addr").bind TomlValue.asStr = some la ∧
      requiredListenAddr doc = some la ∧
      cfg = buildEngineConfig doc p chain_id node_id la := by
  cases hc : doc.get? "consensus" with
  | none =>
    rw [load_engine_config] at h
    simp [okOr, hc, exceptErrBind] at h
  | some c =>
    cases hp : c.get? "p2p" with
    | none =>
      rw [load_engine_config] at h
      simp [okOr, hc, hp, exceptErrBind, exceptOkBind] at h
    | some p =>
      cases hl : (p.get? "listen_addr").bind TomlValue.asStr with
      | none =>
        rw [load_engine_config] at h
        simp [okOr, hc, hp, hl, exceptErrBind, exceptOkBind, exceptMapErr] at h
      | some la =>
        rw [load_engine_config] at h
        simp only [okOr, hc, hp, hl, exceptErrBind, exceptOkBind,
          exceptMapOk, pure, Except.pure, Except.ok.injEq] at h
        refine ⟨c, p, la, rfl, hp, hl, ?_, h.symm⟩
        simp [requiredListenAddr, hc, hp, hl]

/-! ## Claims -/

/-- C10: `with_wal_dir` changes only `wal.path`, leaving
`wal.max_file_size`, `wal.retain_all`, `node`, `network` and
`start_height` unchanged; `with_start_height` changes only
`start_height` (to `some h`), leaving every other field unchanged. -/
theorem with_wal_dir_with_start_height_frame :
    ∀ (c : EngineConfig) (p : String) (h : Height),
      (c.with_wal_dir p).wal.path = p ∧
      (c.with_wal_dir p).wal.max_file_size = c.wal.max_file_size ∧
      (c.with_wal_dir p).wal.retain_all = c.wal.retain_all ∧
      (c.with_wal_dir p).node = c.node ∧
      (c.with_wal_dir p).network = c.network ∧
      (c.with_wal_dir p).start_height = c.start_height ∧
      (c.with_start_height h).start_height = some h ∧
      (c.with_start_height h).node = c.node ∧
      (c.with_start_height h).wal = c.wal ∧
      (c.with_start_height h).network = c.network := by
  intro c p h
  refine ⟨rfl, rfl, rfl, rfl, rfl, rfl, rfl, rfl, rfl, rfl⟩

/-- C9: the parsed `persistent_peers` list produced by `NodeConfig::new`
and by `EngineConfig::with_peers` consists of exactly the peer strings
that parse as multiaddrs, in their original order (`filterMap` of the
parse); entries that fail to parse are dropped without error while the
plain string list keeps every entry. -/
theorem persistent_peers_keeps_exactly_parsable :
    ∀ (moniker listen_addr : String) (peers : List String)
      (c : EngineConfig),
      (NodeConfig.new moniker listen_addr peers).consensus.p2p.persistent_peers
        = peers.filterMap Multiaddr.fromStr ∧
      (c.with_peers peers).node.consensus.p2p.persistent_peers
        = peers.filterMap Multiaddr.fromStr ∧
      (c.with_peers peers).network.peers = peers := by
  intro moniker listen_addr peers c
  exact ⟨rfl, rfl, rfl⟩

/-- C5: `NodeConfig::new` with a listen-address string that does not
parse as a multiaddr succeeds (the constructor is total) and falls back
to the hard-coded default `/ip4/127.0.0.1/tcp/26656`, whatever the
moniker and peer list. -/
theorem nodeConfig_new_listen_fallback :
    (∀ (moniker listen_addr : String) (peers : List String),
      Multiaddr.fromStr listen_addr = none →
      (NodeConfig.new moniker listen_addr peers).consensus.p2p.listen_addr
        = defaultListenAddr) ∧
    Multiaddr.fromStr "/ip4/127.0.0.1/tcp/26656" = some defaultListenAddr := by
  refine ⟨?_, defaultListenAddr_parses⟩
  intro moniker listen_addr peers h
  simp [NodeConfig.new, h]

/-- C5 witness: the concrete string `"garbage"` does not parse, and the
constructed configuration uses the default listen address. -/
theorem nodeConfig_new_listen_fallback_witness :
    Multiaddr.fromStr "garbage" = none ∧
    (NodeConfig.new "node" "garbage" []).consensus.p2p.listen_addr
      = defaultListenAddr :=
  ⟨by decide,
    nodeConfig_new_listen_fallback.1 "node" "garbage" [] (by decide)⟩

/-- C4: loading the round-trip document yields a configuration whose
network peer list is exactly `["a", "b"]` (entries trimmed) and whose
derived internal socket address has port 26657. -/
theorem config_round_trip :
    (load_engine_config roundTripDoc "chain" "node").toOption.map
      (fun c => (c.network.peers, c.network.listen_addr.port))
      = some (["a", "b"], 26657) := by
  decide

/-- C3 counterexample: after `with_peers ["a"]` the plain string list is
`["a"]` but the parsed list is empty (`"a"` is not a multiaddr), so the
two lists do not represent the same set of peers. -/
theorem with_peers_lists_diverge_on_unparsable :
    (withPeersBase.with_peers ["a"]).network.peers = ["a"] ∧
    (withPeersBase.with_peers ["a"]).node.consensus.p2p.persistent_peers
      = [] ∧
    Multiaddr.fromStr "a" = none := by
  refine ⟨rfl, by decide, by decide⟩

/-- C3 (amended): `with_peers` updates both lists together — the plain
string list becomes exactly the given list and the parsed list becomes
exactly the entries of it that parse as multiaddrs, in order; when every
entry parses the two lists represent the same peers (the parsed list is
the elementwise parse of the string list). -/
theorem with_peers_updates_both_lists :
    ∀ (c : EngineConfig) (peers : List String),
      (c.with_peers peers).network.peers = peers ∧
      (c.with_peers peers).node.consensus.p2p.persistent_peers
        = peers.filterMap Multiaddr.fromStr ∧
      ((∀ p ∈ peers, (Multiaddr.fromStr p).isSome) →
        peers.map Multiaddr.fromStr
          = ((c.with_peers peers).node.consensus.p2p.persistent_peers).map
              some) := by
  intro c peers
  refine ⟨rfl, rfl, ?_⟩
  intro hall
  exact filterMap_all_isSome Multiaddr.fromStr peers hall

/-- C3 witness: with the parsable peer `"/ip4/127.0.0.1/tcp/26656"`,
both lists are updated and correspond elementwise. -/
theorem with_peers_updates_both_lists_witness :
    (withPeersBase.with_peers ["/ip4/127.0.0.1/tcp/26656"]).network.peers
      = ["/ip4/127.0.0.1/tcp/26656"] ∧
    ["/ip4/127.0.0.1/tcp/26656"].map Multiaddr.fromStr
      = ((withPeersBase.with_peers
          ["/ip4/127.0.0.1/tcp/26656"]).node.consensus.p2p.persistent_peers).map
            some :=
  ⟨(with_peers_updates_both_lists withPeersBase
      ["/ip4/127.0.0.1/tcp/26656"]).1,
    (with_peers_updates_both_lists withPeersBase
      ["/ip4/127.0.0.1/tcp/26656"]).2.2 (by decide)⟩

/-- C6: every facade operation of `Store` returns exactly the result of
the corresponding backend operation: `max_decided_value_height` is
returned unchanged, and each fallible operation is the backend's result
with the error converted — it errs iff the backend erred (with the
converted error) and succeeds with the backend's unchanged success
value. -/
theorem store_facade_forwards :
    ∀ (ε R : Type) (b : StoreOps ε) (into : ε → R) (h : Height) (r : Round)
      (vid : ValueId) (cert : CommitCertificate) (v : Value)
      (p : ProposedValue),
      (Store.new b into).max_decided_value_height
        = b.max_decided_value_height ∧
      forwards into ((Store.new b into).get_decided_value h)
        (b.get_decided_value h) ∧
      forwards into ((Store.new b into).store_decided_value cert v)
        (b.store_decided_value cert v) ∧
      forwards into ((Store.new b into).get_undecided_proposals h r)
        (b.get_undecided_proposals h r) ∧
      forwards into ((Store.new b into).store_undecided_proposal p)
        (b.store_undecided_proposal p) ∧
      forwards into ((Store.new b into).get_undecided_proposal h r vid)
        (b.get_undecided_proposal h r vid) ∧
      forwards into ((Store.new b into).verify_tables) b.verify_tables := by
  intro ε R b into h r vid cert v p
  exact ⟨rfl, mapError_forwards into _, mapError_forwards into _,
    mapError_forwards into _, mapError_forwards into _,
    mapError_forwards into _, mapError_forwards into _⟩

/-- C6 witness: on the concrete backend, the facade forwards the
recovery height unchanged and every facade error is the conversion of a
backend error. -/
theorem store_facade_forwards_witness :
    (Store.new backendW (fun e => e * 2)).max_decided_value_height
      = some 5 ∧
    (∃ e, backendW.verify_tables = .error e ∧ (18 : Nat) = e * 2) ∧
    ((Store.new backendW (fun e => e * 2)).get_decided_value 0 = .ok none
      ↔ backendW.get_decided_value 0 = .ok none) :=
  ⟨(store_facade_forwards Nat Nat backendW (fun e => e * 2) 0 0 0
      ⟨0, 0, 0⟩ 0 ⟨0, 0, 0, 0⟩).1,
    (store_facade_forwards Nat Nat backendW (fun e => e * 2) 0 0 0
      ⟨0, 0, 0⟩ 0 ⟨0, 0, 0, 0⟩).2.2.2.2.2.2.2.2.2 18 rfl,
    (store_facade_forwards Nat Nat backendW (fun e => e * 2) 0 0 0
      ⟨0, 0, 0⟩ 0 ⟨0, 0, 0, 0⟩).2.1.2.2.1 none⟩

/-- C1 (spec-modelled): after any sequence of store operations from the
empty store, at most one decided entry exists per height; storing the
same certificate/value pair twice is idempotent (the operation always
succeeds, same state afterwards); and a DecidedValue once written is
never updated or deleted by any store operation. -/
theorem store_decided_at_most_one_idempotent_immutable :
    (∀ (ops : List StoreOp) (h : Height),
      ((applyOps StoreState.empty ops).decided.map Prod.fst).count h ≤ 1) ∧
    (∀ (s : StoreState) (c : CommitCertificate) (v : Value),
      (s.store_decided_value c v).store_decided_value c v
        = s.store_decided_value c v) ∧
    (∀ (s : StoreState) (op : StoreOp) (h : Height) (d : DecidedValue),
      s.get_decided_value h = some d →
      (applyOp s op).get_decided_value h = some d) := by
  refine ⟨?_, ?_, ?_⟩
  · intro ops h
    have hnodup := applyOps_keys_nodup ops
      (s := StoreState.empty) (by simp [StoreState.empty])
    exact List.nodup_iff_count_le_one.mp hnodup h
  · intro s c v
    cases hcase : lookupDecided s.decided c.height with
    | some d => simp [StoreState.store_decided_value, hcase]
    | none =>
      have h1 : s.store_decided_value c v
          = { s with decided := s.decided ++ [(c.height, ⟨c, v⟩)] } := by
        simp [StoreState.store_decided_value, hcase]
      have h2 : lookupDecided (s.decided ++ [(c.height, ⟨c, v⟩)]) c.height
          = some ⟨c, v⟩ :=
        lookupDecided_append_self _ hcase
      rw [h1]
      simp [StoreState.store_decided_value, h2]
  · intro s op h d hd
    cases op with
    | storeUndecided p =>
      simpa [applyOp, StoreState.store_undecided_proposal,
        StoreState.get_decided_value] using hd
    | storeDecided c v =>
      simp only [StoreState.get_decided_value] at hd
      simp only [applyOp, StoreState.store_decided_value,
        StoreState.get_decided_value]
      cases hcase : lookupDecided s.decided c.height with
      | some d' => simpa [hcase] using hd
      | none =>
        simp only [hcase, Option.isSome_none, Bool.false_eq_true, if_false]
        exact lookupDecided_append_some _ hd

/-- C1 witness: a decided value at height 5 survives a later store at a
different height. -/
theorem store_decided_immutable_witness :
    (applyOp ⟨[(5, ⟨⟨5, 0, 1⟩, 42⟩)], []⟩
      (.storeDecided ⟨7, 0, 2⟩ 9)).get_decided_value 5
      = some ⟨⟨5, 0, 1⟩, 42⟩ :=
  store_decided_at_most_one_idempotent_immutable.2.2
    ⟨[(5, ⟨⟨5, 0, 1⟩, 42⟩)], []⟩ (.storeDecided ⟨7, 0, 2⟩ 9) 5
    ⟨⟨5, 0, 1⟩, 42⟩ (by decide)

/-- C2 counterexample: the document whose `consensus.p2p.listen_addr`
is present but is the unparsable string `"garbage"` loads successfully,
and the default listen address is silently substituted — the claim that
an unparsable listen address fails the whole load is false. -/
theorem load_succeeds_on_unparsable_listen_addr :
    Multiaddr.fromStr "garbage" = none ∧
    (load_engine_config unparsableListenDoc "chain" "node").isOk = true ∧
    (load_engine_config unparsableListenDoc "chain" "node").toOption.map
      (fun cfg => cfg.node.consensus.p2p.listen_addr)
      = some defaultListenAddr := by
  refine ⟨by decide, by decide, by decide⟩

/-- C2 (amended): a missing required field — the `consensus` section,
the `consensus.p2p` section, or the `consensus.p2p.listen_addr` string —
fails the whole load with the descriptive error naming that field, and
the load succeeds exactly when the required path is present; but a
listen-address value that is present yet unparsable does not fail the
load: the node listen address silently falls back to the default
`/ip4/127.0.0.1/tcp/26656`. -/
theorem load_fails_exactly_on_missing_required_fields :
    ∀ (doc : TomlValue) (chain_id node_id : String),
      (doc.get? "consensus" = none →
        load_engine_config doc chain_id node_id
          = .error "Missing 'consensus' section in config") ∧
      (∀ c, doc.get? "consensus" = some c → c.get? "p2p" = none →
        load_engine_config doc chain_id node_id
          = .error "Missing 'consensus.p2p' section in config") ∧
      (∀ c p, doc.get? "consensus" = some c → c.get? "p2p" = some p →
        (p.get? "listen_addr").bind TomlValue.asStr = none →
        load_engine_config doc chain_id node_id
          = .error "Missing 'consensus.p2p.listen_addr'") ∧
      ((load_engine_config doc chain_id node_id).isOk
        = (requiredListenAddr doc).isSome) ∧
      (∀ la, requiredListenAddr doc = some la →
        Multiaddr.fromStr la = none →
        (load_engine_config doc chain_id node_id).toOption.map
          (fun cfg => cfg.node.consensus.p2p.listen_addr)
          = some defaultListenAddr) := by
  intro doc chain_id node_id
  refine ⟨?_, ?_, ?_, ?_, ?_⟩
  · intro h
    rw [load_engine_config]
    simp [okOr, h, exceptErrBind]
  · intro c hc hp
    rw [load_engine_config]
    simp [okOr, hc, hp, exceptOkBind, exceptErrBind]
  · intro c p hc hp hl
    rw [load_engine_config]
    simp [okOr, hc, hp, hl, exceptOkBind, exceptErrBind, exceptMapErr]
  · rw [load_engine_config, requiredListenAddr]
    cases hc : doc.get? "consensus" with
    | none => simp [okOr, exceptErrBind, Except.isOk, Except.toBool]
    | some c =>
      cases hp : c.get? "p2p" with
      | none => simp [okOr, hp, exceptOkBind, exceptErrBind, Except.isOk, Except.toBool]
      | some p =>
        cases hl : (p.get? "listen_addr").bind TomlValue.asStr with
        | none =>
          simp [okOr, hp, hl, exceptOkBind, exceptErrBind, exceptMapErr,
            Except.isOk, Except.toBool]
        | some la =>
          simp [okOr, hp, hl, exceptOkBind, exceptMapOk, Except.isOk,
            Except.toBool, pure, Except.pure]
  · intro la hla hfs
    rcases Option.bind_eq_some.mp hla with ⟨p, hcp, hl⟩
    rcases Option.bind_eq_some.mp hcp with ⟨c, hc, hp⟩
    rw [load_engine_config]
    simp only [okOr, hc, hp, hl, exceptOkBind, exceptMapOk]
    simp [Except.toOption, buildEngineConfig_node_listen, hfs,
      pure, Except.pure]

/-- C2 witness: a document with no `consensus` section fails with the
descriptive error, and the unparsable-listen-address document falls back
to the default listen address. -/
theorem load_fails_exactly_on_missing_required_fields_witness :
    load_engine_config TomlValue.other "c" "n"
      = .error "Missing 'consensus' section in config" ∧
    (load_engine_config unparsableListenDoc "c" "n").toOption.map
      (fun cfg => cfg.node.consensus.p2p.listen_addr)
      = some defaultListenAddr :=
  ⟨(load_fails_exactly_on_missing_required_fields TomlValue.other
      "c" "n").1 rfl,
    (load_fails_exactly_on_missing_required_fields unparsableListenDoc
      "c" "n").2.2.2.2 "garbage" (by decide) (by decide)⟩

/-- C7: for documents the loader accepts, an absent-or-empty
`persistent_peers` field yields an empty peer list and an absent or
unparsable metrics port yields the default 9000; and absence of the
optional fields is never an error — the load succeeds whenever the
required listen-address path is present. -/
theorem optional_fields_have_documented_defaults :
    ∀ (doc : TomlValue) (chain_id node_id : String) (cfg : EngineConfig),
      (load_engine_config doc chain_id node_id = .ok cfg →
        ((peersField doc).getD "" = "" → cfg.network.peers = []) ∧
        (metricsPortField doc = none →
          cfg.node.metrics.listen_addr.port = 9000)) ∧
      ((requiredListenAddr doc).isSome = true →
        (load_engine_config doc chain_id node_id).isOk = true) := by
  intro doc chain_id node_id cfg
  constructor
  · intro hok
    obtain ⟨c, p, la, hc, hp, hl, hreq, hcfg⟩ := load_ok_inv hok
    constructor
    · intro hpeers
      subst hcfg
      rw [buildEngineConfig_peers]
      have hfield : peersField doc
          = (p.get? "persistent_peers").bind TomlValue.asStr := by
        simp [peersField, hc, hp]
      rw [hfield] at hpeers
      rw [hpeers]
      simp [Rs.isEmpty]
    · intro hm
      subst hcfg
      rw [buildEngineConfig_metrics, hm]
      rfl
  · intro hreq
    cases hla : requiredListenAddr doc with
    | none => rw [hla] at hreq; simp at hreq
    | some la =>
      rcases Option.bind_eq_some.mp hla with ⟨p, hcp, hl⟩
      rcases Option.bind_eq_some.mp hcp with ⟨c, hc, hp⟩
      rw [load_engine_config]
      simp [okOr, hc, hp, hl, exceptOkBind, exceptMapOk, Except.isOk,
        Except.toBool, pure, Except.pure]

/-- C7 witness: the minimal document (required field only) loads, with
an empty peer list and metrics port 9000. -/
theorem optional_fields_have_documented_defaults_witness :
    minimalLoaded.network.peers = [] ∧
    minimalLoaded.node.metrics.listen_addr.port = 9000 ∧
    (load_engine_config minimalDoc "c" "n").isOk = true := by
  have happ := optional_fields_have_documented_defaults minimalDoc
    "c" "n" minimalLoaded
  have hok : load_engine_config minimalDoc "c" "n" = .ok minimalLoaded := rfl
  exact ⟨(happ.1 hok).1 (by decide), (happ.1 hok).2 (by decide),
    happ.2 (by decide)⟩

/-- C8: every successfully loaded configuration has metrics host
`0.0.0.0`: the loader keeps only the port component of the file's
`metrics.listen_addr` (defaulting to 9000) and discards whatever host
the operator configured. -/
theorem metrics_host_always_wildcard :
    ∀ (doc : TomlValue) (chain_id node_id : String) (cfg : EngineConfig),
      load_engine_config doc chain_id node_id = .ok cfg →
      cfg.node.metrics.listen_addr.host = "0.0.0.0" ∧
      cfg.node.metrics.listen_addr.port
        = (metricsPortField doc).getD 9000 := by
  intro doc chain_id node_id cfg hok
  obtain ⟨c, p, la, hc, hp, hl, hreq, hcfg⟩ := load_ok_inv hok
  subst hcfg
  rw [buildEngineConfig_metrics]
  exact ⟨rfl, rfl⟩

/-- C8 witness: the operator configures metrics host `1.2.3.4`, yet the
loaded configuration listens on `0.0.0.0` with only the port 7777
kept. -/
theorem metrics_host_always_wildcard_witness :
    metricsLoaded.node.metrics.listen_addr.host = "0.0.0.0" ∧
    metricsLoaded.node.metrics.listen_addr.port = 7777 := by
  have h := metrics_host_always_wildcard metricsDoc "c" "n"
    metricsLoaded rfl
  exact ⟨h.1, h.2.trans (by decide)⟩

end Tempo
